import Mathlib

/-!
Verification development for the OPC UA client logger
(source: src/opc_client_gui.py).

The Python program is shallowly embedded as executable Lean definitions:

* the tag catalog `TAG_NODES`, row assembly (`buildValues`, `sampleRow`) and
  per-hour CSV files (`appendSample` over an association-list filesystem)
  mirror lines 18-29 and 91-123 of the source;
* `runInner` / `runOuter` / `opc_logger_loop` form a timed interpreter of the
  async function `opc_logger_loop` (lines 75-140).  The environment supplies,
  per connection attempt, either a connect-time fault or a list of sampling
  iterations (each a batch of per-tag read outcomes, or a fault raised during
  the iteration).  The cross-thread stop flag (`threading.Event`) is modelled
  by the time `stopAt` at which the controller sets it; the flag is monotone
  (set once per run).  Time accounting: the only statements of the source that
  suspend the worker are the two sleeps (`await asyncio.sleep(log_interval)`
  at line 125 and `await asyncio.sleep(RECONNECT_DELAY)` at line 138), so the
  clock advances exactly by the slept duration there and connect attempts and
  reads are instantaneous.  Crucially, `asyncio.sleep` has no mechanism to
  observe the `threading.Event`, so a sleep always runs to completion; the
  flag is consulted only at the explicit `stop_event.is_set()` checks
  (lines 82, 91, 137).
* `start_logging`, `run_asyncio_thread`, `stop_logging` model the GUI
  lifecycle methods (lines 205-265) as action traces.
-/

/-- Severity of an application log record. -/
inductive LogLevel where
  | info
  | warning
  | error
deriving DecidableEq

/-- The application log messages emitted by the source, one constructor per
call site of `app_logger` inside `opc_logger_loop`.  `render` below gives the
exact message text of the source. -/
inductive LogMsg where
  | threadStarted
  | attemptingConnect (url : String)
  | connected
  | readError (nodeId : String) (err : String)
  | dataLogged (n : Nat) (fname : String)
  | cancelled
  | connectionRefused (url : String)
  | connectionTimeout
  | unexpectedError (msg : String)
  | shutdown
deriving DecidableEq

/-- The Python reconnect delay constant (line 34). -/
def RECONNECT_DELAY : Nat := 10

/-- The Python default logging interval (line 33). -/
def DEFAULT_LOG_INTERVAL : Nat := 60

/-- Exact text of each log message in the source (f-strings interpolated). -/
def LogMsg.render : LogMsg → String
  | .threadStarted => "OPC UA Logger Thread started."
  | .attemptingConnect url =>
      "Attempting to connect to OPC UA Server at " ++ url ++ "..."
  | .connected => "✅ Connected to OPC UA Server"
  | .readError nodeId err => "Error reading node " ++ nodeId ++ ": " ++ err
  | .dataLogged n fname =>
      "Data for " ++ toString n ++ " tags logged to " ++ fname
  | .cancelled => "OPC UA connection/logging task cancelled."
  | .connectionRefused url =>
      "Connection refused. Is the OPC UA server running at " ++ url ++
        "? Retrying in " ++ toString RECONNECT_DELAY ++ "s..."
  | .connectionTimeout =>
      "Connection timed out. Check network or server address. Retrying in " ++
        toString RECONNECT_DELAY ++ "s..."
  | .unexpectedError msg =>
      "An unexpected error occurred: " ++ msg ++
        ". Connection lost. Retrying in " ++ toString RECONNECT_DELAY ++ "s..."
  | .shutdown => "OPC UA Logger Thread gracefully shut down."

/-- Severity with which the source logs each message:
`app_logger.warning` for per-tag read failures (line 117),
`app_logger.error` / `app_logger.exception` for the three fault handlers
(lines 131, 133, 135), `app_logger.info` everywhere else. -/
def LogMsg.level : LogMsg → LogLevel
  | .readError _ _ => .warning
  | .connectionRefused _ => .error
  | .connectionTimeout => .error
  | .unexpectedError _ => .error
  | _ => .info

/-- The tag catalog `TAG_NODES` (lines 18-29): ordered mapping from tag name
to OPC UA node id.  Python dicts preserve insertion order, so the list order
is the catalog (column) order. -/
def TAG_NODES : List (String × String) :=
  [("Constant_Val", "ns=3;i=1001"),
   ("Counter_Val", "ns=3;i=1002"),
   ("Random_Val", "ns=3;i=1003"),
   ("Sawtooth_Val", "ns=3;i=1004"),
   ("Sinusoid_Val", "ns=3;i=1005"),
   ("Square_Val", "ns=3;i=1006"),
   ("Triangle_Val", "ns=3;i=1007"),
   ("MyLevel_Gauge", "ns=6;s=MyLevel"),
   ("MySwitch_State", "ns=6;s=MySwitch"),
   ("Generic_Double", "ns=5;s=Double")]

/-- `node_id_list = list(TAG_NODES.values())` and
`tag_nodes_objs = [client.get_node(node_id) for node_id in node_id_list]`
(lines 88-89).  `client.get_node` merely wraps the node id in a local node
object (no I/O, cannot fail), so a node object is identified by its id. -/
def tagNodesObjs : List String := TAG_NODES.map Prod.snd

/-- Outcome of one `await node_obj.read_value()` (line 114): either a value,
or an exception caught by the per-tag handler (lines 116-118). -/
inductive ReadOutcome (V : Type) where
  | ok (v : V)
  | err (msg : String)
deriving DecidableEq

/-- The per-tag fault isolation of lines 113-118: a successful read appends
the value, a failed read appends `None`. -/
def ReadOutcome.toValue {V : Type} : ReadOutcome V → Option V
  | .ok v => some v
  | .err _ => none

/-- One CSV cell: a string (timestamp, header label), an integer (epoch), or
an optional tag value (`None` rendered as an empty cell by `csv.writer`). -/
inductive Cell (V : Type) where
  | s (text : String)
  | i (n : Int)
  | v (x : Option V)
deriving DecidableEq

/-- A CSV row, as handed to `writer.writerow`. -/
abbrev Row (V : Type) := List (Cell V)

/-- The `values` list built by the read loop of lines 111-118: one entry per
node object, in catalog order; `readF i` is the outcome of the read of the
i-th node of the connection. -/
def buildValues {V : Type} (readF : Nat → ReadOutcome V) : List (Option V) :=
  (List.range tagNodesObjs.length).map fun i => (readF i).toValue

/-- The warnings emitted by the read loop (line 117), one per failed read, in
read order: pairs of node id and exception text. -/
def readFailures {V : Type} (readF : Nat → ReadOutcome V) :
    List (String × String) :=
  tagNodesObjs.enum.filterMap fun p =>
    match readF p.1 with
    | ReadOutcome.ok _ => none
    | ReadOutcome.err e => some (p.2, e)

/-- `row = [formatted_timestamp, epoch_time] + values` (line 120): the row is
fully assembled from the completed `values` list before `writer.writerow(row)`
receives it. -/
def sampleRow {V : Type} (ts : String) (ep : Int)
    (readF : Nat → ReadOutcome V) : Row V :=
  Cell.s ts :: Cell.i ep :: (buildValues readF).map Cell.v

/-- The header row of line 108:
`["Timestamp (24hr IST)", "Timestamp (epochtime UTC)"] + list(TAG_NODES.keys())`. -/
def headerRow (V : Type) : Row V :=
  Cell.s "Timestamp (24hr IST)" :: Cell.s "Timestamp (epochtime UTC)"
    :: (TAG_NODES.map Prod.fst).map Cell.s

/-- A civil date-time in the configured local zone (IST), as produced by
`datetime.now(IST_TIMEZONE)`; only the fields consumed by the two strftime
calls are modelled. -/
structure LocalDT where
  year : Nat
  month : Nat
  day : Nat
  hour : Nat
  minute : Nat
  second : Nat
deriving DecidableEq

/-- Two-digit zero padding, as strftime %m/%d/%H/%M/%S produce. -/
def pad2 (n : Nat) : String :=
  if n < 10 then "0" ++ toString n else toString n

/-- Four-digit zero padding, as strftime %Y produces. -/
def pad4 (n : Nat) : String :=
  if n < 10 then "000" ++ toString n
  else if n < 100 then "00" ++ toString n
  else if n < 1000 then "0" ++ toString n
  else toString n

/-- strftime %Y-%m-%d. -/
def fmtDate (t : LocalDT) : String :=
  pad4 t.year ++ "-" ++ pad2 t.month ++ "-" ++ pad2 t.day

/-- `now_local.strftime` of the timestamp column (line 94, %Y-%m-%d %H:%M:%S). -/
def fmtTimestamp (t : LocalDT) : String :=
  fmtDate t ++ " " ++ pad2 t.hour ++ ":" ++ pad2 t.minute ++ ":" ++ pad2 t.second

/-- The output file name of line 101:
`OPC_Log_` followed by `now_local.strftime` of %Y-%m-%d_%H, then `.csv`. -/
def filenameOf (t : LocalDT) : String :=
  "OPC_Log_" ++ (fmtDate t ++ "_" ++ pad2 t.hour) ++ ".csv"

/-- The filesystem visible to the worker: file name to CSV rows. -/
abbrev FS (V : Type) := List (String × List (Row V))

/-- File lookup; `none` means the file does not exist on disk. -/
def fsLookup {V : Type} : FS V → String → Option (List (Row V))
  | [], _ => none
  | (n, c) :: rest, name => if n = name then some c else fsLookup rest name

/-- Replace (or create) a file with the given content. -/
def fsStore {V : Type} : FS V → String → List (Row V) → FS V
  | [], name, content => [(name, content)]
  | (n, c) :: rest, name, content =>
      if n = name then (n, content) :: rest
      else (n, c) :: fsStore rest name content

/-- One append of lines 103-121: `file_exists = os.path.isfile(filename)`,
open in append mode (creating the file if absent), write the header iff the
file did not exist, then write exactly the one data row.  Returns the new
filesystem and whether the header was written. -/
def appendSample {V : Type} (fs : FS V) (fname : String) (row : Row V) :
    FS V × Bool :=
  match fsLookup fs fname with
  | some content => (fsStore fs fname (content ++ [row]), false)
  | none => (fsStore fs fname [headerRow V, row], true)

/-- Fault classes distinguished by the exception handlers of lines 127-135. -/
inductive Fault where
  | cancelled
  | connectionRefused
  | timeout
  | other (msg : String)
deriving DecidableEq

/-- The log message each non-cancellation fault handler emits (lines 131,
133, 135); the cancellation handler (line 128) logs `LogMsg.cancelled`. -/
def faultLogMsg (url : String) : Fault → LogMsg
  | Fault.cancelled => LogMsg.cancelled
  | Fault.connectionRefused => LogMsg.connectionRefused url
  | Fault.timeout => LogMsg.connectionTimeout
  | Fault.other m => LogMsg.unexpectedError m

/-- Environment script for one iteration of the sampling sub-loop
(lines 91-125): either a completed sample (the local time and epoch returned
by `datetime.now`, and the outcome of each per-tag read), or an exception of
the given class raised during the iteration (connection loss at a read,
an I/O failure at open/write, a cancellation delivered at an await) that
escapes to the handlers of lines 127-135 before the file effects of the iteration. -/
inductive IterSpec (V : Type) where
  | sample (t : LocalDT) (ep : Int) (readF : Nat → ReadOutcome V)
  | crash (f : Fault)

/-- Environment script for one iteration of the outer retry loop: either
`Client(...).__aenter__` raises the given fault, or the connection succeeds
and the sampling sub-loop runs the given iteration scripts. -/
inductive AttemptSpec (V : Type) where
  | connectFail (f : Fault)
  | connectOk (iters : List (IterSpec V))

/-- Observable events of a run, in program order: log records, the two
sleeps, and the file writes. -/
inductive Ev (V : Type) where
  | log (m : LogMsg)
  | sleepSample (d : Nat)
  | sleepReconnect (d : Nat)
  | writeHeader (fname : String)
  | writeRow (fname : String) (row : Row V)

/-- The stop flag as a function of time: `stopAt = some s` means the
controller sets the `threading.Event` at time `s` (and it stays set);
`none` means no stop is ever requested during the run. -/
def stopSet (stopAt : Option Nat) (t : Nat) : Bool :=
  match stopAt with
  | none => false
  | some s => decide (s ≤ t)

/-- How the sampling sub-loop of lines 91-125 was left. -/
inductive InnerExit where
  | stopped
  | crashed (f : Fault)
  | scriptEnd
deriving DecidableEq

/-- Result of the sampling sub-loop: filesystem, timestamped event trace,
clock on exit, and the exit kind. -/
structure InnerRes (V : Type) where
  fs : FS V
  trace : List (Nat × Ev V)
  clock : Nat
  exit : InnerExit

/-- Configuration passed to `opc_logger_loop` (server_url, log_interval). -/
structure LoopCfg where
  serverUrl : String
  logInterval : Nat
deriving DecidableEq

/-- The warning events of the read loop at a given instant. -/
def warnEvents {V : Type} (clock : Nat) (l : List (String × String)) :
    List (Nat × Ev V) :=
  l.map fun p => (clock, Ev.log (LogMsg.readError p.1 p.2))

/-- The sampling sub-loop `while not stop_event.is_set()` of lines 91-125.
Each completed iteration: take the timestamps, derive the file name from the
local hour, append (header iff the file is new, then the row), log the info
line, then `await asyncio.sleep(log_interval)` — which runs to completion
unconditionally (the clock advances by the full interval) because a plain
asyncio sleep cannot observe the `threading.Event`. -/
def runInner {V : Type} (cfg : LoopCfg) (sa : Option Nat) :
    List (IterSpec V) → Nat → FS V → InnerRes V
  | iters, clock, fs =>
    if stopSet sa clock then ⟨fs, [], clock, InnerExit.stopped⟩
    else
      match iters with
      | [] => ⟨fs, [], clock, InnerExit.scriptEnd⟩
      | IterSpec.crash f :: _ => ⟨fs, [], clock, InnerExit.crashed f⟩
      | IterSpec.sample t ep readF :: rest =>
        let fname := filenameOf t
        let row := sampleRow (fmtTimestamp t) ep readF
        let res := appendSample fs fname row
        let evs : List (Nat × Ev V) :=
          (if res.2 then [(clock, Ev.writeHeader fname)] else [])
          ++ warnEvents clock (readFailures readF)
          ++ [(clock, Ev.writeRow fname row),
              (clock, Ev.log (LogMsg.dataLogged TAG_NODES.length fname)),
              (clock, Ev.sleepSample cfg.logInterval)]
        let r := runInner cfg sa rest (clock + cfg.logInterval) res.1
        ⟨r.fs, evs ++ r.trace, r.clock, r.exit⟩

/-- How a whole run ended: `graceful` is reaching line 140 (stop observed at
the outer check, or the `break` of the cancellation handler); `outOfScript`
means the environment script was exhausted with the loop still running. -/
inductive TermKind where
  | graceful
  | outOfScript
deriving DecidableEq

/-- Result of a whole run. -/
structure RunRes (V : Type) where
  fs : FS V
  trace : List (Nat × Ev V)
  endTime : Nat
  outcome : TermKind

/-- The outer retry loop `while not stop_event.is_set()` of lines 82-138.
On a fault: the cancellation handler logs and `break`s out of the loop
(line 129); the other handlers log their class-specific error (lines
130-135); then line 137 re-checks the stop flag and, only if it is not set,
line 138 sleeps `RECONNECT_DELAY` before the loop retries the connection. -/
def runOuter {V : Type} (cfg : LoopCfg) (sa : Option Nat) :
    List (AttemptSpec V) → Nat → FS V → RunRes V
  | attempts, clock, fs =>
    if stopSet sa clock then
      ⟨fs, [(clock, Ev.log LogMsg.shutdown)], clock, TermKind.graceful⟩
    else
      match attempts with
      | [] =>
        ⟨fs, [(clock, Ev.log (LogMsg.attemptingConnect cfg.serverUrl))],
          clock, TermKind.outOfScript⟩
      | AttemptSpec.connectFail f :: rest =>
        let ev0 : List (Nat × Ev V) :=
          [(clock, Ev.log (LogMsg.attemptingConnect cfg.serverUrl))]
        if f = Fault.cancelled then
          ⟨fs, ev0 ++ [(clock, Ev.log LogMsg.cancelled),
                       (clock, Ev.log LogMsg.shutdown)],
            clock, TermKind.graceful⟩
        else
          let ev1 := ev0 ++ [(clock, Ev.log (faultLogMsg cfg.serverUrl f))]
          if stopSet sa clock then
            let r := runOuter cfg sa rest clock fs
            ⟨r.fs, ev1 ++ r.trace, r.endTime, r.outcome⟩
          else
            let ev2 := ev1 ++ [(clock, Ev.sleepReconnect RECONNECT_DELAY)]
            let r := runOuter cfg sa rest (clock + RECONNECT_DELAY) fs
            ⟨r.fs, ev2 ++ r.trace, r.endTime, r.outcome⟩
      | AttemptSpec.connectOk iters :: rest =>
        let ev0 : List (Nat × Ev V) :=
          [(clock, Ev.log (LogMsg.attemptingConnect cfg.serverUrl)),
           (clock, Ev.log LogMsg.connected)]
        let ir := runInner cfg sa iters clock fs
        match ir.exit with
        | InnerExit.scriptEnd =>
          ⟨ir.fs, ev0 ++ ir.trace, ir.clock, TermKind.outOfScript⟩
        | InnerExit.stopped =>
          if stopSet sa ir.clock then
            let r := runOuter cfg sa rest ir.clock ir.fs
            ⟨r.fs, ev0 ++ ir.trace ++ r.trace, r.endTime, r.outcome⟩
          else
            let r := runOuter cfg sa rest (ir.clock + RECONNECT_DELAY) ir.fs
            ⟨r.fs, ev0 ++ ir.trace
                ++ [(ir.clock, Ev.sleepReconnect RECONNECT_DELAY)] ++ r.trace,
              r.endTime, r.outcome⟩
        | InnerExit.crashed f =>
          if f = Fault.cancelled then
            ⟨ir.fs, ev0 ++ ir.trace
                ++ [(ir.clock, Ev.log LogMsg.cancelled),
                    (ir.clock, Ev.log LogMsg.shutdown)],
              ir.clock, TermKind.graceful⟩
          else
            let ev1 := [(ir.clock, Ev.log (faultLogMsg cfg.serverUrl f))]
            if stopSet sa ir.clock then
              let r := runOuter cfg sa rest ir.clock ir.fs
              ⟨r.fs, ev0 ++ ir.trace ++ ev1 ++ r.trace, r.endTime, r.outcome⟩
            else
              let r := runOuter cfg sa rest (ir.clock + RECONNECT_DELAY) ir.fs
              ⟨r.fs, ev0 ++ ir.trace ++ ev1
                  ++ [(ir.clock, Ev.sleepReconnect RECONNECT_DELAY)]
                  ++ r.trace,
                r.endTime, r.outcome⟩

/-- The whole async function `opc_logger_loop` (lines 75-140): the startup
log of line 80, then the outer retry loop started at time 0 on an empty
filesystem (fresh process). -/
def opc_logger_loop {V : Type} (cfg : LoopCfg) (sa : Option Nat)
    (attempts : List (AttemptSpec V)) : RunRes V :=
  let r := runOuter cfg sa attempts 0 []
  ⟨r.fs, (0, Ev.log LogMsg.threadStarted) :: r.trace, r.endTime, r.outcome⟩

/-- Decimal digit-string accumulator: `none` until a digit has been seen,
and failure (overall `none` result) on any non-digit character. -/
def digitsToNat? : List Char → Option Nat → Option Nat
  | [], acc => acc
  | ch :: rest, acc =>
    if ch.isDigit then
      digitsToNat? rest (some ((acc.getD 0) * 10 + (ch.toNat - 48)))
    else none

/-- Python `int(text)` as used on the interval entry (line 208); modelled for
plain decimal literals (an optional sign then one or more digits), the
shapes the claims exercise. -/
def pyInt? (s : String) : Option Int :=
  match s.data with
  | '-' :: rest => (digitsToNat? rest none).map fun n => -(n : Int)
  | '+' :: rest => (digitsToNat? rest none).map fun n => (n : Int)
  | l => (digitsToNat? l none).map fun n => (n : Int)

/-- Observable actions of `OpcClientGui.start_logging` (lines 205-234), in
program order.  `disableInputs` stands for the widget reconfiguration of
lines 216-219 and `clearLogText` for lines 222-224. -/
inductive GuiAction where
  | showError (msg : String)
  | disableInputs
  | clearLogText
  | clearStopEvent
  | startThread (url : String) (interval : Int)
deriving DecidableEq

/-- Result of a `start_logging` call: the synchronous validation error (the
`messagebox.showerror` of line 212) if any, whether the background thread was
started, the state of the shared stop flag after the call (given its state
before the call), and the action trace. -/
structure StartResult where
  error : Option String
  launched : Bool
  stopEventSet : Bool
  actions : List GuiAction
deriving DecidableEq

/-- `OpcClientGui.start_logging` (lines 205-234): read the url entry, parse
the interval with `int(...)` raising `ValueError` on garbage or on a
non-positive value (lines 207-213, handled synchronously with a messagebox
and an early return); otherwise reconfigure the widgets, clear the GUI log,
clear the shared stop event (line 226), and start the daemon thread running
`_run_asyncio_thread` (lines 228-233).  The server url is never validated. -/
def start_logging (priorStopSet : Bool) (serverUrl : String)
    (intervalText : String) : StartResult :=
  match pyInt? intervalText with
  | none =>
    { error := some "Log Interval error: invalid literal for int"
      launched := false
      stopEventSet := priorStopSet
      actions := [GuiAction.showError "Log Interval error: invalid literal for int"] }
  | some n =>
    if n ≤ 0 then
      { error := some "Log Interval error: Interval must be a positive number."
        launched := false
        stopEventSet := priorStopSet
        actions := [GuiAction.showError
          "Log Interval error: Interval must be a positive number."] }
    else
      { error := none
        launched := true
        stopEventSet := false
        actions := [GuiAction.disableInputs, GuiAction.clearLogText,
                    GuiAction.clearStopEvent,
                    GuiAction.startThread serverUrl n] }

/-- How `run_until_complete(opc_logger_loop(...))` (line 242) ends:
it returns normally (the loop interpreter above always ends this way, since
every `Exception` is handled inside the loop), an `asyncio.CancelledError`
escapes it, or a fault that is not an `Exception` (a `BaseException` such as
`KeyboardInterrupt`, or a failure of the runner itself) escapes it. -/
inductive LoopOutcome where
  | completed
  | cancelledError
  | fatal
deriving DecidableEq

/-- Observable events of `OpcClientGui._run_asyncio_thread` (lines 236-249). -/
inductive ThreadEv where
  | logCancelled
  | closeLoop
  | logClosed
  | scheduleReset
deriving DecidableEq

/-- `OpcClientGui._run_asyncio_thread` (lines 236-249), with Python
try/except/finally flow made explicit: the `except asyncio.CancelledError`
arm catches only that fault; the `finally` closes the loop on every path;
the `self.master.after(0, self._reset_gui_buttons)` of line 249 sits AFTER
the try statement, not inside its `finally`, so it runs only when nothing is
still propagating.  Returns the event list and whether the reset callback
was scheduled. -/
def run_asyncio_thread (o : LoopOutcome) : List ThreadEv × Bool :=
  let pending : Option LoopOutcome :=
    match o with
    | LoopOutcome.completed => none
    | LoopOutcome.cancelledError => some LoopOutcome.cancelledError
    | LoopOutcome.fatal => some LoopOutcome.fatal
  let afterExcept : List ThreadEv × Option LoopOutcome :=
    match pending with
    | some LoopOutcome.cancelledError => ([ThreadEv.logCancelled], none)
    | p => ([], p)
  let afterFinally : List ThreadEv :=
    afterExcept.1 ++ [ThreadEv.closeLoop, ThreadEv.logClosed]
  match afterExcept.2 with
  | none => (afterFinally ++ [ThreadEv.scheduleReset], true)
  | some _ => (afterFinally, false)

/-- Observable actions of `OpcClientGui.stop_logging` (lines 252-257). -/
inductive CtrlEv where
  | logStopping
  | setStopEvent
  | callResetButtons
deriving DecidableEq

/-- `OpcClientGui.stop_logging` (lines 252-257): log, set the stop event,
and call `_reset_gui_buttons` directly and immediately. -/
def stop_logging : List CtrlEv :=
  [CtrlEv.logStopping, CtrlEv.setStopEvent, CtrlEv.callResetButtons]

/-- Number of times `_reset_gui_buttons` is invoked over one run in which the
user did or did not click Stop (`stop_logging`) and the worker thread body
ended with the given outcome: the direct call of line 257 plus the scheduled
call of line 249. -/
def resetInvocations (stopClicked : Bool) (o : LoopOutcome) : Nat :=
  (if stopClicked
    then stop_logging.countP fun e => decide (e = CtrlEv.callResetButtons)
    else 0)
  + (run_asyncio_thread o).1.countP fun e => decide (e = ThreadEv.scheduleReset)

/-- Number of header rows in a file content. -/
def headerCount {V : Type} [DecidableEq V] (content : List (Row V)) : Nat :=
  content.countP fun r => decide (r = headerRow V)

/-- Spec-side file name, written from the words of the spec: pattern
`<Prefix>_<YYYY-MM-DD>_<HH>.csv`. -/
def specFileName (stem datePart hourPart : String) : String :=
  stem ++ "_" ++ datePart ++ "_" ++ hourPart ++ ".csv"

/-- Spec-side header, written from the words of the spec:
`Timestamp (24hr <zone>)`, `Timestamp (epochtime UTC)`, then the tag names
in catalog order. -/
def specHeaderRow (V : Type) (zone : String) (tagNames : List String) : Row V :=
  Cell.s ("Timestamp (24hr " ++ zone ++ ")")
    :: Cell.s "Timestamp (epochtime UTC)" :: tagNames.map Cell.s

/-- The error-severity log messages of a trace, in order. -/
def errorsOf {V : Type} (tr : List (Nat × Ev V)) : List LogMsg :=
  tr.filterMap fun te =>
    match te.2 with
    | Ev.log m => if m.level = LogLevel.error then some m else none
    | _ => none

/-- The reconnect-wait durations of a trace, in order. -/
def reconnectsOf {V : Type} (tr : List (Nat × Ev V)) : List Nat :=
  tr.filterMap fun te =>
    match te.2 with
    | Ev.sleepReconnect d => some d
    | _ => none

/-- Does the event begin a reconnect wait? -/
def isReconnectEv {V : Type} : Ev V → Bool
  | Ev.sleepReconnect _ => true
  | _ => false

/-- Is the event the cancellation log of line 128? -/
def isCancelLog {V : Type} : Ev V → Bool
  | Ev.log LogMsg.cancelled => true
  | _ => false

/-- Does the event begin any sleep? -/
def isSleepEv {V : Type} : Ev V → Bool
  | Ev.sleepSample _ => true
  | Ev.sleepReconnect _ => true
  | _ => false

/-- Every reconnect wait of the trace begins at an instant at which the stop
flag is not set. -/
def reconnectsRespectStop {V : Type} (sa : Option Nat)
    (tr : List (Nat × Ev V)) : Bool :=
  tr.all fun te =>
    match te.2 with
    | Ev.sleepReconnect _ => !(stopSet sa te.1)
    | _ => true

/-- After a cancellation log, the worker never sleeps again (neither sampling
sleep nor reconnect wait). -/
def noSleepAfterCancel {V : Type} : List (Nat × Ev V) → Bool
  | [] => true
  | te :: rest =>
    if isCancelLog te.2 then rest.all fun x => !(isSleepEv x.2)
    else noSleepAfterCancel rest

/-- First fault raised inside a sampling sub-loop script, if any. -/
def firstCrash {V : Type} : List (IterSpec V) → Option Fault
  | [] => none
  | IterSpec.crash f :: _ => some f
  | IterSpec.sample _ _ _ :: rest => firstCrash rest

/-- The non-cancellation faults an attempts script makes the worker face, in
order, up to the first cancellation or the end of the script (a cancellation
breaks the loop; an exhausted script means the run is still going). -/
def scriptFaults {V : Type} : List (AttemptSpec V) → List Fault
  | [] => []
  | AttemptSpec.connectFail f :: rest =>
    if f = Fault.cancelled then [] else f :: scriptFaults rest
  | AttemptSpec.connectOk iters :: rest =>
    match firstCrash iters with
    | none => []
    | some f => if f = Fault.cancelled then [] else f :: scriptFaults rest

/-- A row write occurs before the first sleep of the trace. -/
def rowWriteBeforeFirstSleep {V : Type} : List (Nat × Ev V) → Bool
  | [] => false
  | (_, Ev.writeRow _ _) :: _ => true
  | (_, Ev.sleepSample _) :: _ => false
  | (_, Ev.sleepReconnect _) :: _ => false
  | _ :: rest => rowWriteBeforeFirstSleep rest

/-- Scanning the action trace of a `start_logging` call, the stop event is
cleared before any thread is started. -/
def stopClearedBeforeLaunch : List GuiAction → Bool
  | [] => true
  | GuiAction.startThread _ _ :: _ => false
  | GuiAction.clearStopEvent :: _ => true
  | _ :: rest => stopClearedBeforeLaunch rest

theorem fsLookup_fsStore_self {V : Type} (fs : FS V) (name : String)
    (content : List (Row V)) :
    fsLookup (fsStore fs name content) name = some content := by
  induction fs with
  | nil => simp [fsStore, fsLookup]
  | cons hd rest ih =>
    obtain ⟨n, c⟩ := hd
    by_cases h : n = name
    · simp [fsStore, fsLookup, h]
    · simp [fsStore, fsLookup, h, ih]

theorem sampleRow_ne_headerRow {V : Type} (ts : String) (ep : Int)
    (readF : Nat → ReadOutcome V) : sampleRow ts ep readF ≠ headerRow V := by
  intro h
  simp [sampleRow, headerRow] at h

theorem errorsOf_append {V : Type} (a b : List (Nat × Ev V)) :
    errorsOf (a ++ b) = errorsOf a ++ errorsOf b :=
  List.filterMap_append a b _

theorem reconnectsOf_append {V : Type} (a b : List (Nat × Ev V)) :
    reconnectsOf (a ++ b) = reconnectsOf a ++ reconnectsOf b :=
  List.filterMap_append a b _

theorem errorsOf_warnEvents {V : Type} (c : Nat) (l : List (String × String)) :
    errorsOf (warnEvents (V := V) c l) = [] := by
  induction l with
  | nil => rfl
  | cons hd tl ih => simp [warnEvents, errorsOf, LogMsg.level, ih]

theorem reconnectsOf_warnEvents {V : Type} (c : Nat)
    (l : List (String × String)) :
    reconnectsOf (warnEvents (V := V) c l) = [] := by
  induction l with
  | nil => rfl
  | cons hd tl ih => simp [warnEvents, reconnectsOf, ih]

theorem warnEvents_noCancel {V : Type} (c : Nat) (l : List (String × String)) :
    ((warnEvents (V := V) c l).all fun te => !(isCancelLog te.2)) = true := by
  induction l with
  | nil => rfl
  | cons hd tl ih => simp [warnEvents, isCancelLog] at ih ⊢ ; exact ih

theorem warnEvents_noReconnect {V : Type} (c : Nat)
    (l : List (String × String)) :
    ((warnEvents (V := V) c l).all fun te => !(isReconnectEv te.2)) = true := by
  induction l with
  | nil => rfl
  | cons hd tl ih => simp [warnEvents, isReconnectEv] at ih ⊢ ; exact ih

theorem noSleepAfterCancel_append {V : Type} (a b : List (Nat × Ev V))
    (h : (a.all fun te => !(isCancelLog te.2)) = true) :
    noSleepAfterCancel (a ++ b) = noSleepAfterCancel b := by
  induction a with
  | nil => rfl
  | cons hd tl ih =>
    simp only [List.all_cons, Bool.and_eq_true, Bool.not_eq_true'] at h
    simp [noSleepAfterCancel, h.1, ih h.2]

theorem rowWriteBeforeFirstSleep_warn {V : Type} (c : Nat)
    (l : List (String × String)) (rest : List (Nat × Ev V)) :
    rowWriteBeforeFirstSleep (warnEvents c l ++ rest)
      = rowWriteBeforeFirstSleep rest := by
  induction l with
  | nil => rfl
  | cons hd tl ih => simpa [warnEvents, rowWriteBeforeFirstSleep] using ih

theorem reconnectsRespectStop_of_none {V : Type} (sa : Option Nat)
    (tr : List (Nat × Ev V))
    (h : (tr.all fun te => !(isReconnectEv te.2)) = true) :
    reconnectsRespectStop sa tr = true := by
  induction tr with
  | nil => rfl
  | cons hd tl ih =>
    simp only [List.all_cons, Bool.and_eq_true] at h
    have h1 := h.1
    have := ih h.2
    simp only [reconnectsRespectStop, List.all_cons, Bool.and_eq_true]
    refine ⟨?_, by simpa [reconnectsRespectStop] using this⟩
    match hev : hd.2 with
    | Ev.sleepReconnect d => rw [hev] at h1; simp [isReconnectEv] at h1
    | Ev.log m => simp
    | Ev.sleepSample d => simp
    | Ev.writeHeader f => simp
    | Ev.writeRow f r => simp

theorem reconnectsRespectStop_append {V : Type} (sa : Option Nat)
    (a b : List (Nat × Ev V)) :
    reconnectsRespectStop sa (a ++ b)
      = (reconnectsRespectStop sa a && reconnectsRespectStop sa b) :=
  List.all_append



@[simp]
theorem errorsOf_nil {V : Type} : errorsOf ([] : List (Nat × Ev V)) = [] := rfl

@[simp]
theorem errorsOf_cons_log {V : Type} (c : Nat) (m : LogMsg)
    (tr : List (Nat × Ev V)) :
    errorsOf ((c, Ev.log m) :: tr)
      = if m.level = LogLevel.error then m :: errorsOf tr else errorsOf tr := by
  by_cases hm : m.level = LogLevel.error <;>
    simp [errorsOf, List.filterMap_cons, hm]

@[simp]
theorem errorsOf_cons_sleepSample {V : Type} (c d : Nat)
    (tr : List (Nat × Ev V)) :
    errorsOf ((c, Ev.sleepSample d) :: tr) = errorsOf tr := rfl

@[simp]
theorem errorsOf_cons_sleepReconnect {V : Type} (c d : Nat)
    (tr : List (Nat × Ev V)) :
    errorsOf ((c, Ev.sleepReconnect d) :: tr) = errorsOf tr := rfl

@[simp]
theorem errorsOf_cons_writeHeader {V : Type} (c : Nat) (f : String)
    (tr : List (Nat × Ev V)) :
    errorsOf ((c, Ev.writeHeader f) :: tr) = errorsOf tr := rfl

@[simp]
theorem errorsOf_cons_writeRow {V : Type} (c : Nat) (f : String) (r : Row V)
    (tr : List (Nat × Ev V)) :
    errorsOf ((c, Ev.writeRow f r) :: tr) = errorsOf tr := rfl

@[simp]
theorem reconnectsOf_nil {V : Type} :
    reconnectsOf ([] : List (Nat × Ev V)) = [] := rfl

@[simp]
theorem reconnectsOf_cons_log {V : Type} (c : Nat) (m : LogMsg)
    (tr : List (Nat × Ev V)) :
    reconnectsOf ((c, Ev.log m) :: tr) = reconnectsOf tr := rfl

@[simp]
theorem reconnectsOf_cons_sleepSample {V : Type} (c d : Nat)
    (tr : List (Nat × Ev V)) :
    reconnectsOf ((c, Ev.sleepSample d) :: tr) = reconnectsOf tr := rfl

@[simp]
theorem reconnectsOf_cons_sleepReconnect {V : Type} (c d : Nat)
    (tr : List (Nat × Ev V)) :
    reconnectsOf ((c, Ev.sleepReconnect d) :: tr) = d :: reconnectsOf tr := rfl

@[simp]
theorem reconnectsOf_cons_writeHeader {V : Type} (c : Nat) (f : String)
    (tr : List (Nat × Ev V)) :
    reconnectsOf ((c, Ev.writeHeader f) :: tr) = reconnectsOf tr := rfl

@[simp]
theorem reconnectsOf_cons_writeRow {V : Type} (c : Nat) (f : String)
    (r : Row V) (tr : List (Nat × Ev V)) :
    reconnectsOf ((c, Ev.writeRow f r) :: tr) = reconnectsOf tr := rfl

theorem runInner_no_reconnect {V : Type} (cfg : LoopCfg) (sa : Option Nat)
    (iters : List (IterSpec V)) :
    ∀ (clock : Nat) (fs : FS V),
      reconnectsOf (runInner cfg sa iters clock fs).trace = [] := by
  induction iters with
  | nil =>
    intro c fs
    by_cases h : stopSet sa c <;> simp only [runInner, h] <;> rfl
  | cons hd tl ih =>
    intro c fs
    cases hd with
    | crash f =>
      by_cases h : stopSet sa c <;> simp only [runInner, h] <;> rfl
    | sample t ep readF =>
      by_cases h : stopSet sa c
      · simp only [runInner, h]; rfl
      · simp only [runInner, h, Bool.false_eq_true, if_false]
        simp only [reconnectsOf_append, reconnectsOf_warnEvents, ih]
        split <;> simp

theorem stopSet_none (t : Nat) : stopSet none t = false := rfl

theorem runInner_noCancelLog {V : Type} (cfg : LoopCfg) (sa : Option Nat)
    (iters : List (IterSpec V)) :
    ∀ (clock : Nat) (fs : FS V),
      ((runInner cfg sa iters clock fs).trace.all
        fun te => !(isCancelLog te.2)) = true := by
  induction iters with
  | nil =>
    intro c fs
    by_cases h : stopSet sa c <;> simp only [runInner, h] <;> rfl
  | cons hd tl ih =>
    intro c fs
    cases hd with
    | crash f =>
      by_cases h : stopSet sa c <;> simp only [runInner, h] <;> rfl
    | sample t ep readF =>
      by_cases h : stopSet sa c
      · simp only [runInner, h]; rfl
      · simp only [runInner, h, Bool.false_eq_true, if_false]
        simp only [List.all_append, warnEvents_noCancel, ih]
        split <;> simp [isCancelLog]

theorem runInner_errors_none {V : Type} (cfg : LoopCfg)
    (iters : List (IterSpec V)) :
    ∀ (clock : Nat) (fs : FS V),
      errorsOf (runInner cfg none iters clock fs).trace = [] := by
  induction iters with
  | nil => intro c fs; simp only [runInner, stopSet_none]; rfl
  | cons hd tl ih =>
    intro c fs
    cases hd with
    | crash f => simp only [runInner, stopSet_none]; rfl
    | sample t ep readF =>
      simp only [runInner, stopSet_none, Bool.false_eq_true, if_false]
      simp only [errorsOf_append, errorsOf_warnEvents, ih]
      split <;> simp [LogMsg.level]

theorem runInner_exit_none {V : Type} (cfg : LoopCfg)
    (iters : List (IterSpec V)) :
    ∀ (clock : Nat) (fs : FS V),
      (runInner cfg none iters clock fs).exit =
        (match firstCrash iters with
         | some f => InnerExit.crashed f
         | none => InnerExit.scriptEnd) := by
  induction iters with
  | nil => intro c fs; simp only [runInner, stopSet_none]; rfl
  | cons hd tl ih =>
    intro c fs
    cases hd with
    | crash f => simp only [runInner, stopSet_none]; rfl
    | sample t ep readF =>
      simp only [runInner, stopSet_none, Bool.false_eq_true, if_false,
        firstCrash]
      exact ih _ _

theorem runInner_stopped_stopSet {V : Type} (cfg : LoopCfg) (sa : Option Nat)
    (iters : List (IterSpec V)) :
    ∀ (clock : Nat) (fs : FS V),
      (runInner cfg sa iters clock fs).exit = InnerExit.stopped →
        stopSet sa (runInner cfg sa iters clock fs).clock = true := by
  induction iters with
  | nil =>
    intro c fs hex
    by_cases h : stopSet sa c
    · simp [runInner, h]
    · simp [runInner, h] at hex
  | cons hd tl ih =>
    intro c fs hex
    cases hd with
    | crash f =>
      by_cases h : stopSet sa c
      · simp [runInner, h]
      · simp [runInner, h] at hex
    | sample t ep readF =>
      by_cases h : stopSet sa c
      · simp [runInner, h]
      · simp only [runInner, h, Bool.false_eq_true, if_false] at hex ⊢
        exact ih _ _ hex

theorem runInner_clock_le {V : Type} (cfg : LoopCfg) (s : Nat)
    (iters : List (IterSpec V)) :
    ∀ (clock : Nat) (fs : FS V),
      (runInner cfg (some s) iters clock fs).clock
        ≤ max clock (s + cfg.logInterval) := by
  induction iters with
  | nil =>
    intro c fs
    by_cases h : stopSet (some s) c <;> simp [runInner, h, le_max_left]
  | cons hd tl ih =>
    intro c fs
    cases hd with
    | crash f =>
      by_cases h : stopSet (some s) c <;> simp [runInner, h, le_max_left]
    | sample t ep readF =>
      by_cases h : stopSet (some s) c
      · simp [runInner, h, le_max_left]
      · simp only [runInner, h, Bool.false_eq_true, if_false]
        have hcs : c < s := by
          have hns : ¬ (s ≤ c) := by simpa [stopSet] using h
          omega
        refine le_trans (ih (c + cfg.logInterval) _) ?_
        have hmx : max (c + cfg.logInterval) (s + cfg.logInterval)
            ≤ s + cfg.logInterval := by
          apply max_le <;> omega
        exact le_trans hmx (le_max_right _ _)

theorem all_no_reconnect_of_reconnectsOf_nil {V : Type}
    (tr : List (Nat × Ev V)) (h : reconnectsOf tr = []) :
    (tr.all fun te => !(isReconnectEv te.2)) = true := by
  induction tr with
  | nil => rfl
  | cons hd tl ih =>
    obtain ⟨c, e⟩ := hd
    rw [List.all_cons]
    cases e with
    | sleepReconnect d => simp [reconnectsOf_cons_sleepReconnect] at h
    | log m =>
      rw [reconnectsOf_cons_log] at h
      rw [ih h]; rfl
    | sleepSample d =>
      rw [reconnectsOf_cons_sleepSample] at h
      rw [ih h]; rfl
    | writeHeader f =>
      rw [reconnectsOf_cons_writeHeader] at h
      rw [ih h]; rfl
    | writeRow f r =>
      rw [reconnectsOf_cons_writeRow] at h
      rw [ih h]; rfl

@[simp]
theorem level_threadStarted : LogMsg.threadStarted.level = LogLevel.info := rfl

@[simp]
theorem level_attemptingConnect (url : String) :
    (LogMsg.attemptingConnect url).level = LogLevel.info := rfl

@[simp]
theorem level_connected : LogMsg.connected.level = LogLevel.info := rfl

@[simp]
theorem level_readError (a b : String) :
    (LogMsg.readError a b).level = LogLevel.warning := rfl

@[simp]
theorem level_dataLogged (n : Nat) (f : String) :
    (LogMsg.dataLogged n f).level = LogLevel.info := rfl

@[simp]
theorem level_cancelled : LogMsg.cancelled.level = LogLevel.info := rfl

@[simp]
theorem level_shutdown : LogMsg.shutdown.level = LogLevel.info := rfl

theorem faultLogMsg_level (url : String) (f : Fault)
    (hf : f ≠ Fault.cancelled) :
    (faultLogMsg url f).level = LogLevel.error := by
  cases f with
  | cancelled => exact absurd rfl hf
  | connectionRefused => rfl
  | timeout => rfl
  | other m => rfl

theorem isCancelLog_faultLogMsg {V : Type} (url : String) (f : Fault)
    (hf : f ≠ Fault.cancelled) :
    isCancelLog (V := V) (Ev.log (faultLogMsg url f)) = false := by
  cases f with
  | cancelled => exact absurd rfl hf
  | connectionRefused => rfl
  | timeout => rfl
  | other m => rfl

theorem runOuter_none_faults {V : Type} (cfg : LoopCfg)
    (attempts : List (AttemptSpec V)) :
    ∀ (clock : Nat) (fs : FS V),
      errorsOf (runOuter cfg none attempts clock fs).trace
        = (scriptFaults attempts).map (faultLogMsg cfg.serverUrl)
      ∧ reconnectsOf (runOuter cfg none attempts clock fs).trace
        = (scriptFaults attempts).map (fun _ => RECONNECT_DELAY) := by
  induction attempts with
  | nil =>
    intro c fs
    simp [runOuter, stopSet_none, scriptFaults]
  | cons hd tl ih =>
    intro c fs
    cases hd with
    | connectFail f =>
      by_cases hf : f = Fault.cancelled
      · subst hf
        simp [runOuter, stopSet_none, scriptFaults]
      · simp only [runOuter, stopSet_none, Bool.false_eq_true, if_false,
          if_neg hf]
        constructor
        · simp [errorsOf_append, faultLogMsg_level _ _ hf,
            (ih (c + RECONNECT_DELAY) fs).1, scriptFaults, hf]
        · simp [reconnectsOf_append, (ih (c + RECONNECT_DELAY) fs).2,
            scriptFaults, hf]
    | connectOk iters =>
      have hex := runInner_exit_none cfg iters c fs
      cases hfc : firstCrash iters with
      | none =>
        rw [hfc] at hex
        simp only [runOuter, stopSet_none, Bool.false_eq_true, if_false, hex]
        constructor
        · simp [errorsOf_append, runInner_errors_none,
            scriptFaults, hfc]
        · simp [reconnectsOf_append, runInner_no_reconnect, scriptFaults, hfc]
      | some f =>
        rw [hfc] at hex
        by_cases hf : f = Fault.cancelled
        · subst hf
          simp only [runOuter, stopSet_none, Bool.false_eq_true, if_false,
            hex, if_pos rfl]
          constructor
          · simp [errorsOf_append, runInner_errors_none,
              scriptFaults, hfc]
          · simp [reconnectsOf_append, runInner_no_reconnect, scriptFaults,
              hfc]
        · simp only [runOuter, stopSet_none, Bool.false_eq_true, if_false,
            hex, if_neg hf]
          constructor
          · simp [errorsOf_append, faultLogMsg_level _ _ hf,
              runInner_errors_none, (ih _ _).1, scriptFaults, hfc, hf]
          · simp [reconnectsOf_append, runInner_no_reconnect,
              (ih _ _).2, scriptFaults, hfc, hf]

@[simp]
theorem reconnectsRespectStop_nil {V : Type} (sa : Option Nat) :
    reconnectsRespectStop sa ([] : List (Nat × Ev V)) = true := rfl

@[simp]
theorem reconnectsRespectStop_cons_log {V : Type} (sa : Option Nat) (c : Nat)
    (m : LogMsg) (tr : List (Nat × Ev V)) :
    reconnectsRespectStop sa ((c, Ev.log m) :: tr)
      = reconnectsRespectStop sa tr := by
  simp [reconnectsRespectStop]

@[simp]
theorem reconnectsRespectStop_cons_sleepSample {V : Type} (sa : Option Nat)
    (c d : Nat) (tr : List (Nat × Ev V)) :
    reconnectsRespectStop sa ((c, Ev.sleepSample d) :: tr)
      = reconnectsRespectStop sa tr := by
  simp [reconnectsRespectStop]

@[simp]
theorem reconnectsRespectStop_cons_writeHeader {V : Type} (sa : Option Nat)
    (c : Nat) (f : String) (tr : List (Nat × Ev V)) :
    reconnectsRespectStop sa ((c, Ev.writeHeader f) :: tr)
      = reconnectsRespectStop sa tr := by
  simp [reconnectsRespectStop]

@[simp]
theorem reconnectsRespectStop_cons_writeRow {V : Type} (sa : Option Nat)
    (c : Nat) (f : String) (r : Row V) (tr : List (Nat × Ev V)) :
    reconnectsRespectStop sa ((c, Ev.writeRow f r) :: tr)
      = reconnectsRespectStop sa tr := by
  simp [reconnectsRespectStop]

@[simp]
theorem reconnectsRespectStop_cons_sleepReconnect {V : Type} (sa : Option Nat)
    (c d : Nat) (tr : List (Nat × Ev V)) :
    reconnectsRespectStop sa ((c, Ev.sleepReconnect d) :: tr)
      = (!(stopSet sa c) && reconnectsRespectStop sa tr) := by
  simp [reconnectsRespectStop]

theorem runOuter_respectStop {V : Type} (cfg : LoopCfg) (sa : Option Nat)
    (attempts : List (AttemptSpec V)) :
    ∀ (clock : Nat) (fs : FS V),
      reconnectsRespectStop sa (runOuter cfg sa attempts clock fs).trace
        = true := by
  induction attempts with
  | nil =>
    intro c fs
    by_cases h : stopSet sa c <;> simp only [runOuter, h] <;> rfl
  | cons hd tl ih =>
    intro c fs
    cases hd with
    | connectFail f =>
      by_cases h : stopSet sa c
      · simp only [runOuter, h]; rfl
      · have hb : stopSet sa c = false := by simpa using h
        by_cases hf : f = Fault.cancelled
        · subst hf
          simp only [runOuter, hb, Bool.false_eq_true, if_false, if_pos rfl]
          rfl
        · simp only [runOuter, hb, Bool.false_eq_true, if_false, if_neg hf]
          simp [reconnectsRespectStop_append, hb, ih]
    | connectOk iters =>
      by_cases h : stopSet sa c
      · simp only [runOuter, h]; rfl
      · have hb : stopSet sa c = false := by simpa using h
        have hIR : reconnectsRespectStop sa
            (runInner cfg sa iters c fs).trace = true :=
          reconnectsRespectStop_of_none sa _
            (all_no_reconnect_of_reconnectsOf_nil _
              (runInner_no_reconnect cfg sa iters c fs))
        cases hex : (runInner cfg sa iters c fs).exit with
        | scriptEnd =>
          simp only [runOuter, hb, Bool.false_eq_true, if_false, hex]
          simp [reconnectsRespectStop_append, hIR]
        | stopped =>
          by_cases hs2 : stopSet sa (runInner cfg sa iters c fs).clock
          · simp only [runOuter, hb, Bool.false_eq_true, if_false, hex,
              if_pos hs2]
            simp [reconnectsRespectStop_append, hIR, ih]
          · have hb2 : stopSet sa (runInner cfg sa iters c fs).clock = false :=
              by simpa using hs2
            simp only [runOuter, hb, Bool.false_eq_true, if_false, hex,
              hb2]
            simp [reconnectsRespectStop_append, hIR, hb2, ih]
        | crashed f =>
          by_cases hf : f = Fault.cancelled
          · subst hf
            simp only [runOuter, hb, Bool.false_eq_true, if_false, hex,
              if_pos rfl]
            simp [reconnectsRespectStop_append, hIR]
          · by_cases hs2 : stopSet sa (runInner cfg sa iters c fs).clock
            · simp only [runOuter, hb, Bool.false_eq_true, if_false, hex,
                if_neg hf, if_pos hs2]
              simp [reconnectsRespectStop_append, hIR, ih]
            · have hb2 : stopSet sa (runInner cfg sa iters c fs).clock
                  = false := by simpa using hs2
              simp only [runOuter, hb, Bool.false_eq_true, if_false, hex,
                if_neg hf, hb2]
              simp [reconnectsRespectStop_append, hIR, hb2, ih]

theorem noSleepAfterCancel_cons {V : Type} (c : Nat) (e : Ev V)
    (tr : List (Nat × Ev V)) (h : isCancelLog e = false) :
    noSleepAfterCancel ((c, e) :: tr) = noSleepAfterCancel tr := by
  simp [noSleepAfterCancel, h]

@[simp]
theorem noSleepAfterCancel_cons_threadStarted {V : Type} (c : Nat)
    (tr : List (Nat × Ev V)) :
    noSleepAfterCancel ((c, Ev.log LogMsg.threadStarted) :: tr)
      = noSleepAfterCancel tr := rfl

@[simp]
theorem noSleepAfterCancel_cons_attempting {V : Type} (c : Nat) (u : String)
    (tr : List (Nat × Ev V)) :
    noSleepAfterCancel ((c, Ev.log (LogMsg.attemptingConnect u)) :: tr)
      = noSleepAfterCancel tr := rfl

@[simp]
theorem noSleepAfterCancel_cons_connected {V : Type} (c : Nat)
    (tr : List (Nat × Ev V)) :
    noSleepAfterCancel ((c, Ev.log LogMsg.connected) :: tr)
      = noSleepAfterCancel tr := rfl

@[simp]
theorem noSleepAfterCancel_cons_readError {V : Type} (c : Nat) (a b : String)
    (tr : List (Nat × Ev V)) :
    noSleepAfterCancel ((c, Ev.log (LogMsg.readError a b)) :: tr)
      = noSleepAfterCancel tr := rfl

@[simp]
theorem noSleepAfterCancel_cons_dataLogged {V : Type} (c n : Nat) (f : String)
    (tr : List (Nat × Ev V)) :
    noSleepAfterCancel ((c, Ev.log (LogMsg.dataLogged n f)) :: tr)
      = noSleepAfterCancel tr := rfl

@[simp]
theorem noSleepAfterCancel_cons_shutdown {V : Type} (c : Nat)
    (tr : List (Nat × Ev V)) :
    noSleepAfterCancel ((c, Ev.log LogMsg.shutdown) :: tr)
      = noSleepAfterCancel tr := rfl

@[simp]
theorem noSleepAfterCancel_cons_sleepSample {V : Type} (c d : Nat)
    (tr : List (Nat × Ev V)) :
    noSleepAfterCancel ((c, Ev.sleepSample d) :: tr)
      = noSleepAfterCancel tr := rfl

@[simp]
theorem noSleepAfterCancel_cons_sleepReconnect {V : Type} (c d : Nat)
    (tr : List (Nat × Ev V)) :
    noSleepAfterCancel ((c, Ev.sleepReconnect d) :: tr)
      = noSleepAfterCancel tr := rfl

@[simp]
theorem noSleepAfterCancel_cons_writeHeader {V : Type} (c : Nat) (f : String)
    (tr : List (Nat × Ev V)) :
    noSleepAfterCancel ((c, Ev.writeHeader f) :: tr)
      = noSleepAfterCancel tr := rfl

@[simp]
theorem noSleepAfterCancel_cons_writeRow {V : Type} (c : Nat) (f : String)
    (r : Row V) (tr : List (Nat × Ev V)) :
    noSleepAfterCancel ((c, Ev.writeRow f r) :: tr)
      = noSleepAfterCancel tr := rfl

theorem noSleepAfterCancel_of_noCancel {V : Type} (tr : List (Nat × Ev V))
    (h : (tr.all fun te => !(isCancelLog te.2)) = true) :
    noSleepAfterCancel tr = true := by
  induction tr with
  | nil => rfl
  | cons hd tl ih =>
    rw [List.all_cons] at h
    have h1 : isCancelLog hd.2 = false := by
      rcases Bool.and_eq_true _ _ |>.mp h with ⟨ha, _⟩
      simpa using ha
    have h2 := Bool.and_eq_true _ _ |>.mp h |>.2
    obtain ⟨c, e⟩ := hd
    rw [noSleepAfterCancel_cons _ _ _ h1]
    exact ih h2

theorem runOuter_noSleepAfterCancel {V : Type} (cfg : LoopCfg)
    (sa : Option Nat) (attempts : List (AttemptSpec V)) :
    ∀ (clock : Nat) (fs : FS V),
      noSleepAfterCancel (runOuter cfg sa attempts clock fs).trace = true := by
  induction attempts with
  | nil =>
    intro c fs
    by_cases h : stopSet sa c <;> simp only [runOuter, h] <;> rfl
  | cons hd tl ih =>
    intro c fs
    cases hd with
    | connectFail f =>
      by_cases h : stopSet sa c
      · simp only [runOuter, h]; rfl
      · have hb : stopSet sa c = false := by simpa using h
        by_cases hf : f = Fault.cancelled
        · subst hf
          simp only [runOuter, hb, Bool.false_eq_true, if_false, if_pos rfl]
          rfl
        · simp only [runOuter, hb, Bool.false_eq_true, if_false, if_neg hf]
          simp only [List.cons_append, List.singleton_append,
            List.append_assoc, List.nil_append]
          simp only [noSleepAfterCancel_cons_attempting]
          rw [noSleepAfterCancel_cons _ _ _ (isCancelLog_faultLogMsg _ _ hf)]
          simp only [noSleepAfterCancel_cons_sleepReconnect]
          exact ih _ _
    | connectOk iters =>
      by_cases h : stopSet sa c
      · simp only [runOuter, h]; rfl
      · have hb : stopSet sa c = false := by simpa using h
        have hIR := runInner_noCancelLog cfg sa iters c fs
        cases hex : (runInner cfg sa iters c fs).exit with
        | scriptEnd =>
          simp only [runOuter, hb, Bool.false_eq_true, if_false, hex]
          simp only [List.cons_append, List.singleton_append,
            List.append_assoc, List.nil_append]
          simp only [noSleepAfterCancel_cons_attempting,
            noSleepAfterCancel_cons_connected]
          exact noSleepAfterCancel_of_noCancel _ hIR
        | stopped =>
          by_cases hs2 : stopSet sa (runInner cfg sa iters c fs).clock
          · simp only [runOuter, hb, Bool.false_eq_true, if_false, hex,
              if_pos hs2]
            simp [List.cons_append, List.singleton_append, List.append_assoc,
              noSleepAfterCancel_cons, isCancelLog,
              noSleepAfterCancel_append _ _ hIR, ih]
          · have hb2 : stopSet sa (runInner cfg sa iters c fs).clock = false :=
              by simpa using hs2
            simp only [runOuter, hb, Bool.false_eq_true, if_false, hex, hb2]
            simp [List.cons_append, List.singleton_append, List.append_assoc,
              noSleepAfterCancel_cons, isCancelLog,
              noSleepAfterCancel_append _ _ hIR, ih]
        | crashed f =>
          by_cases hf : f = Fault.cancelled
          · subst hf
            simp only [runOuter, hb, Bool.false_eq_true, if_false, hex,
              if_pos rfl]
            simp [List.cons_append, List.singleton_append, List.append_assoc,
              noSleepAfterCancel_cons, isCancelLog,
              noSleepAfterCancel_append _ _ hIR, noSleepAfterCancel,
              isSleepEv]
          · by_cases hs2 : stopSet sa (runInner cfg sa iters c fs).clock
            · simp only [runOuter, hb, Bool.false_eq_true, if_false, hex,
                if_neg hf, if_pos hs2]
              simp [List.cons_append, List.singleton_append, List.append_assoc,
                noSleepAfterCancel_cons, isCancelLog,
                noSleepAfterCancel_append _ _ hIR]
              rw [noSleepAfterCancel_cons _ _ _
                (isCancelLog_faultLogMsg _ _ hf)]
              exact ih _ _
            · have hb2 : stopSet sa (runInner cfg sa iters c fs).clock
                  = false := by simpa using hs2
              simp only [runOuter, hb, Bool.false_eq_true, if_false, hex,
                if_neg hf, hb2]
              simp [List.cons_append, List.singleton_append, List.append_assoc,
                noSleepAfterCancel_cons, isCancelLog,
                noSleepAfterCancel_append _ _ hIR]
              rw [noSleepAfterCancel_cons _ _ _
                (isCancelLog_faultLogMsg _ _ hf)]
              simp only [noSleepAfterCancel_cons_sleepReconnect]
              exact ih _ _

theorem runOuter_endTime_le {V : Type} (cfg : LoopCfg) (s : Nat)
    (attempts : List (AttemptSpec V)) :
    ∀ (clock : Nat) (fs : FS V),
      (runOuter cfg (some s) attempts clock fs).outcome = TermKind.graceful →
      (runOuter cfg (some s) attempts clock fs).endTime
        ≤ max clock (s + max cfg.logInterval RECONNECT_DELAY) := by
  have hliM : cfg.logInterval ≤ max cfg.logInterval RECONNECT_DELAY :=
    le_max_left _ _
  have hrdM : RECONNECT_DELAY ≤ max cfg.logInterval RECONNECT_DELAY :=
    le_max_right _ _
  induction attempts with
  | nil =>
    intro c fs hout
    by_cases h : stopSet (some s) c
    · simp [runOuter, h, le_max_left]
    · simp [runOuter, h] at hout
  | cons hd tl ih =>
    intro c fs hout
    cases hd with
    | connectFail f =>
      by_cases h : stopSet (some s) c
      · simp [runOuter, h, le_max_left]
      · have hb : stopSet (some s) c = false := by simpa using h
        have hns : ¬ s ≤ c := by simpa [stopSet] using h
        by_cases hf : f = Fault.cancelled
        · subst hf
          simp only [runOuter, hb, Bool.false_eq_true, if_false, if_pos rfl]
          exact le_max_left _ _
        · simp only [runOuter, hb, Bool.false_eq_true, if_false,
            if_neg hf] at hout ⊢
          have h1 := ih (c + RECONNECT_DELAY) fs hout
          refine le_trans h1 (max_le ?_ (le_max_right _ _))
          have : c + RECONNECT_DELAY
              ≤ s + max cfg.logInterval RECONNECT_DELAY := by omega
          exact le_trans this (le_max_right _ _)
    | connectOk iters =>
      by_cases h : stopSet (some s) c
      · simp [runOuter, h, le_max_left]
      · have hb : stopSet (some s) c = false := by simpa using h
        have hclk := runInner_clock_le cfg s iters c fs
        have hkey : max c (s + cfg.logInterval)
            ≤ max c (s + max cfg.logInterval RECONNECT_DELAY) :=
          max_le (le_max_left _ _)
            (le_trans (by omega) (le_max_right _ _))
        cases hex : (runInner cfg (some s) iters c fs).exit with
        | scriptEnd =>
          simp only [runOuter, hb, Bool.false_eq_true, if_false, hex] at hout
          simp at hout
        | stopped =>
          have hst := runInner_stopped_stopSet cfg (some s) iters c fs hex
          simp only [runOuter, hb, Bool.false_eq_true, if_false, hex,
            if_pos hst] at hout ⊢
          have h1 := ih _ _ hout
          refine le_trans h1 (max_le ?_ (le_max_right _ _))
          exact le_trans hclk hkey
        | crashed f =>
          by_cases hf : f = Fault.cancelled
          · subst hf
            simp only [runOuter, hb, Bool.false_eq_true, if_false, hex,
              if_pos rfl]
            exact le_trans hclk hkey
          · by_cases hs2 : stopSet (some s)
                (runInner cfg (some s) iters c fs).clock
            · simp only [runOuter, hb, Bool.false_eq_true, if_false, hex,
                if_neg hf, if_pos hs2] at hout ⊢
              have h1 := ih _ _ hout
              refine le_trans h1 (max_le ?_ (le_max_right _ _))
              exact le_trans hclk hkey
            · have hb2 : stopSet (some s)
                  (runInner cfg (some s) iters c fs).clock = false := by
                simpa using hs2
              have hns2 : ¬ s ≤ (runInner cfg (some s) iters c fs).clock := by
                simpa [stopSet] using hs2
              simp only [runOuter, hb, Bool.false_eq_true, if_false, hex,
                if_neg hf, hb2] at hout ⊢
              have h1 := ih _ _ hout
              refine le_trans h1 (max_le ?_ (le_max_right _ _))
              have : (runInner cfg (some s) iters c fs).clock + RECONNECT_DELAY
                  ≤ s + max cfg.logInterval RECONNECT_DELAY := by omega
              exact le_trans this (le_max_right _ _)

/-- C1: for every sequence of per-tag read outcomes, the row assembled by one
sampling iteration (lines 111-121) has exactly one value entry per catalog
tag, in catalog order: `len(values) == len(TAG_NODES)` always, the row is
`[timestamp, epoch] + values`, and position i of the values holds exactly the
outcome of the read of tag i, with a failed read giving an absent value (`none`)
in that position only.  The row handed to the writer (the `Ev.writeRow` of
`runInner`) is exactly this fully constructed `sampleRow`. -/
theorem C1_row_assembly {V : Type} (ts : String) (ep : Int)
    (readF : Nat → ReadOutcome V) :
    (buildValues readF).length = TAG_NODES.length
    ∧ (sampleRow ts ep readF).length = 2 + TAG_NODES.length
    ∧ (sampleRow ts ep readF).get? 0 = some (Cell.s ts)
    ∧ (sampleRow ts ep readF).get? 1 = some (Cell.i ep)
    ∧ ∀ i : Nat, (sampleRow ts ep readF).get? (2 + i)
        = if i < TAG_NODES.length then some (Cell.v ((readF i).toValue))
          else none := by
  refine ⟨?_, ?_, rfl, rfl, ?_⟩
  · simp [buildValues, tagNodesObjs]
  · simp [sampleRow, buildValues, tagNodesObjs]; omega
  · intro i
    rw [show 2 + i = i + 1 + 1 by omega]
    simp only [sampleRow, List.get?_cons_succ, List.get?_map]
    by_cases hi : i < TAG_NODES.length
    · have hi2 : i < tagNodesObjs.length := by
        simpa [tagNodesObjs] using hi
      rw [if_pos hi]
      simp only [buildValues, List.get?_map]
      simp only [List.get?_eq_getElem?, List.getElem?_map]
      rw [List.getElem?_range hi2]
      rfl
    · have hi2 : tagNodesObjs.length ≤ i := by
        simp only [tagNodesObjs, List.length_map]
        omega
      rw [if_neg hi]
      have hnone : (buildValues readF).get? i = none := by
        rw [List.get?_eq_none]
        simp only [buildValues, List.length_map, List.length_range]
        omega
      rw [hnone]
      rfl

/-- C3: the header is written iff the file does not already exist on disk at
the moment of the append (the `os.path.isfile` check of line 103 is the only
dedup mechanism — `appendSample` consults the filesystem, never any
in-memory flag); consequently a file that is absent, or that pre-exists with
exactly one header (the restart case), holds exactly one header after the
append; and the file name depends only on the local date and hour, so all
samples of the same local hour land in the same file. -/
theorem C3_header_dedup {V : Type} [DecidableEq V] (fs : FS V)
    (fname : String) (ts : String) (ep : Int) (readF : Nat → ReadOutcome V)
    (hpre : ∀ content, fsLookup fs fname = some content →
      headerCount content = 1) :
    headerCount ((fsLookup (appendSample fs fname
        (sampleRow ts ep readF)).1 fname).getD []) = 1
    ∧ (appendSample fs fname (sampleRow ts ep readF)).2
        = (fsLookup fs fname).isNone
    ∧ (∀ t1 t2 : LocalDT, t1.year = t2.year → t1.month = t2.month →
        t1.day = t2.day → t1.hour = t2.hour →
        filenameOf t1 = filenameOf t2) := by
  have hne := sampleRow_ne_headerRow (V := V) ts ep readF
  refine ⟨?_, ?_, ?_⟩
  · cases hlu : fsLookup fs fname with
    | none =>
      simp only [appendSample, hlu]
      rw [fsLookup_fsStore_self]
      simp [headerCount, List.countP_cons, hne]
    | some content =>
      simp only [appendSample, hlu]
      rw [fsLookup_fsStore_self]
      have h1 := hpre content hlu
      simp only [headerCount, List.countP_append, List.countP_cons,
        List.countP_nil] at h1 ⊢
      simp [hne, h1]
  · cases hlu : fsLookup fs fname <;> simp [appendSample, hlu]
  · intro t1 t2 hy hm hd hh
    simp [filenameOf, fmtDate, hy, hm, hd, hh]

/-- C8: the output file name follows the pattern
`<Prefix>_<YYYY-MM-DD>_<HH>.csv` with prefix `OPC_Log`, all components taken
from the local (IST) timestamp, and the header row is
`Timestamp (24hr <zone>)`, `Timestamp (epochtime UTC)`, then the tag names in
catalog order, with zone IST (`specFileName` and `specHeaderRow` are written
from the words of the spec).  The UTF-8 encoding of line 104 is below the
level of this embedding. -/
theorem C8_file_format {V : Type} (t : LocalDT) :
    filenameOf t = specFileName "OPC_Log" (fmtDate t) (pad2 t.hour)
    ∧ headerRow V = specHeaderRow V "IST" (TAG_NODES.map Prod.fst) := by
  constructor
  · apply String.ext
    simp only [filenameOf, specFileName, String.data_append,
      List.append_assoc]
    rfl
  · rfl

/-- C6: with no stop requested, every fault the environment script throws at
the worker — connect-time or mid-sampling, connection-refused, timeout, or
any other exception class including write/IO errors (all reaching the same
`except` ladder of lines 130-135) — is logged at error severity with its
class-specific message, is followed by exactly one reconnect wait of
`RECONNECT_DELAY`, and never terminates the loop: the error log and the
reconnect waits of the whole run match the fault list of the script one for one. -/
theorem C6_fault_recovery {V : Type} (cfg : LoopCfg)
    (attempts : List (AttemptSpec V)) :
    errorsOf (opc_logger_loop cfg none attempts).trace
      = (scriptFaults attempts).map (faultLogMsg cfg.serverUrl)
    ∧ reconnectsOf (opc_logger_loop cfg none attempts).trace
      = (scriptFaults attempts).map (fun _ => RECONNECT_DELAY) := by
  have h := runOuter_none_faults cfg attempts 0 []
  constructor
  · simpa [opc_logger_loop] using h.1
  · simpa [opc_logger_loop] using h.2

/-- C7: in every run, a reconnect wait is only ever begun at an instant at
which the stop flag is not set (the guard of line 137), and after the
log of the cancellation handler (line 128, followed by `break`) the worker never
sleeps again — so a stop or a cancellation never incurs the
`RECONNECT_DELAY` wait. -/
theorem C7_no_wait_after_stop {V : Type} (cfg : LoopCfg) (sa : Option Nat)
    (attempts : List (AttemptSpec V)) :
    reconnectsRespectStop sa (opc_logger_loop cfg sa attempts).trace = true
    ∧ noSleepAfterCancel (opc_logger_loop cfg sa attempts).trace = true := by
  constructor
  · simpa [opc_logger_loop] using runOuter_respectStop cfg sa attempts 0 []
  · simpa [opc_logger_loop] using
      runOuter_noSleepAfterCancel cfg sa attempts 0 []

/-- C2 counterexample: interval 10, stop requested at time 1, while the
worker is inside the sampling sleep that spans times 0 to 10.  The claim
demands that the worker observe the stop mid-sleep and terminate before
time 10 (without waiting out the remaining 9 seconds).  The code terminates
exactly at time 10: `await asyncio.sleep(log_interval)` cannot observe the
`threading.Event`, so the flag is only seen by the loop check after the
sleep completes. -/
theorem C2_counterexample :
    (opc_logger_loop ⟨"opc.tcp://s", 10⟩ (some 1)
      [AttemptSpec.connectOk
        [IterSpec.sample ⟨2025, 1, 1, 12, 0, 0⟩ 100
          (fun _ => ReadOutcome.ok (1 : Int)),
         IterSpec.sample ⟨2025, 1, 1, 12, 0, 0⟩ 100
          (fun _ => ReadOutcome.ok (1 : Int))]]).endTime = 10
    ∧ ¬ ((opc_logger_loop ⟨"opc.tcp://s", 10⟩ (some 1)
      [AttemptSpec.connectOk
        [IterSpec.sample ⟨2025, 1, 1, 12, 0, 0⟩ 100
          (fun _ => ReadOutcome.ok (1 : Int)),
         IterSpec.sample ⟨2025, 1, 1, 12, 0, 0⟩ 100
          (fun _ => ReadOutcome.ok (1 : Int))]]).endTime < 10) := by
  constructor
  · rfl
  · intro hlt
    rw [show (opc_logger_loop ⟨"opc.tcp://s", 10⟩ (some 1)
      [AttemptSpec.connectOk
        [IterSpec.sample ⟨2025, 1, 1, 12, 0, 0⟩ 100
          (fun _ => ReadOutcome.ok (1 : Int)),
         IterSpec.sample ⟨2025, 1, 1, 12, 0, 0⟩ 100
          (fun _ => ReadOutcome.ok (1 : Int))]]).endTime = 10 from rfl] at hlt
    omega

/-- C2 amended: the sleep is NOT interruptible — a stop set mid-sleep is
observed only at the next `stop_event.is_set()` check after the sleep runs
out.  What holds instead: once the worker observes the stop it terminates
with no further sampling iteration and no reconnect wait, so for every
gracefully terminating run the end time is at most the stop time plus one
full sleep, `max(log_interval, RECONNECT_DELAY)`. -/
theorem C2_shutdown_latency_bound {V : Type} (cfg : LoopCfg) (s : Nat)
    (attempts : List (AttemptSpec V))
    (h : (opc_logger_loop cfg (some s) attempts).outcome
      = TermKind.graceful) :
    (opc_logger_loop cfg (some s) attempts).endTime
      ≤ s + max cfg.logInterval RECONNECT_DELAY := by
  have h0 : (runOuter cfg (some s) attempts 0 ([] : FS V)).outcome
      = TermKind.graceful := by
    simpa [opc_logger_loop] using h
  have h1 := runOuter_endTime_le cfg s attempts 0 [] h0
  have h2 : (opc_logger_loop cfg (some s) attempts).endTime
      = (runOuter cfg (some s) attempts 0 ([] : FS V)).endTime := rfl
  rw [h2]
  exact le_trans h1 (max_le (Nat.zero_le _) le_rfl)

/-- C2 witness: the counterexample run terminates gracefully, and its end
time 10 is within the amended bound 1 + max(10, RECONNECT_DELAY) = 11. -/
theorem C2_shutdown_latency_bound_witness :
    (opc_logger_loop ⟨"opc.tcp://s", 10⟩ (some 1)
      [AttemptSpec.connectOk
        [IterSpec.sample ⟨2025, 1, 1, 12, 0, 0⟩ 100
          (fun _ => ReadOutcome.ok (2 : Int)),
         IterSpec.sample ⟨2025, 1, 1, 12, 0, 0⟩ 100
          (fun _ => ReadOutcome.ok (2 : Int))]]).outcome = TermKind.graceful
    ∧ (opc_logger_loop ⟨"opc.tcp://s", 10⟩ (some 1)
      [AttemptSpec.connectOk
        [IterSpec.sample ⟨2025, 1, 1, 12, 0, 0⟩ 100
          (fun _ => ReadOutcome.ok (2 : Int)),
         IterSpec.sample ⟨2025, 1, 1, 12, 0, 0⟩ 100
          (fun _ => ReadOutcome.ok (2 : Int))]]).endTime
      ≤ 1 + max 10 RECONNECT_DELAY :=
  ⟨rfl, C2_shutdown_latency_bound ⟨"opc.tcp://s", 10⟩ 1 _ rfl⟩

@[simp]
theorem rowWriteBeforeFirstSleep_cons_log {V : Type} (c : Nat) (m : LogMsg)
    (tr : List (Nat × Ev V)) :
    rowWriteBeforeFirstSleep ((c, Ev.log m) :: tr)
      = rowWriteBeforeFirstSleep tr := rfl

@[simp]
theorem rowWriteBeforeFirstSleep_cons_writeHeader {V : Type} (c : Nat)
    (f : String) (tr : List (Nat × Ev V)) :
    rowWriteBeforeFirstSleep ((c, Ev.writeHeader f) :: tr)
      = rowWriteBeforeFirstSleep tr := rfl

@[simp]
theorem rowWriteBeforeFirstSleep_cons_writeRow {V : Type} (c : Nat)
    (f : String) (r : Row V) (tr : List (Nat × Ev V)) :
    rowWriteBeforeFirstSleep ((c, Ev.writeRow f r) :: tr) = true := rfl

theorem runOuter_connectOk_trace {V : Type} (cfg : LoopCfg) (sa : Option Nat)
    (iters : List (IterSpec V)) (rest : List (AttemptSpec V)) (c : Nat)
    (fs : FS V) (h : stopSet sa c = false) :
    ∃ tail,
      (runOuter cfg sa (AttemptSpec.connectOk iters :: rest) c fs).trace
        = (c, Ev.log (LogMsg.attemptingConnect cfg.serverUrl))
          :: (c, Ev.log LogMsg.connected)
          :: ((runInner cfg sa iters c fs).trace ++ tail) := by
  cases hex : (runInner cfg sa iters c fs).exit with
  | scriptEnd =>
    refine ⟨[], ?_⟩
    simp [runOuter, h, hex]
  | stopped =>
    by_cases hs2 : stopSet sa (runInner cfg sa iters c fs).clock
    · refine ⟨(runOuter cfg sa rest (runInner cfg sa iters c fs).clock
        (runInner cfg sa iters c fs).fs).trace, ?_⟩
      simp [runOuter, h, hex, if_pos hs2]
    · have hb2 : stopSet sa (runInner cfg sa iters c fs).clock = false := by
        simpa using hs2
      refine ⟨((runInner cfg sa iters c fs).clock,
          Ev.sleepReconnect RECONNECT_DELAY)
        :: (runOuter cfg sa rest
          ((runInner cfg sa iters c fs).clock + RECONNECT_DELAY)
          (runInner cfg sa iters c fs).fs).trace, ?_⟩
      simp [runOuter, h, hex, hb2]
  | crashed f =>
    by_cases hf : f = Fault.cancelled
    · subst hf
      refine ⟨[((runInner cfg sa iters c fs).clock, Ev.log LogMsg.cancelled),
        ((runInner cfg sa iters c fs).clock, Ev.log LogMsg.shutdown)], ?_⟩
      simp [runOuter, h, hex]
    · by_cases hs2 : stopSet sa (runInner cfg sa iters c fs).clock
      · refine ⟨((runInner cfg sa iters c fs).clock,
            Ev.log (faultLogMsg cfg.serverUrl f))
          :: (runOuter cfg sa rest (runInner cfg sa iters c fs).clock
            (runInner cfg sa iters c fs).fs).trace, ?_⟩
        simp [runOuter, h, hex, if_neg hf, if_pos hs2]
      · have hb2 : stopSet sa (runInner cfg sa iters c fs).clock = false := by
          simpa using hs2
        refine ⟨((runInner cfg sa iters c fs).clock,
            Ev.log (faultLogMsg cfg.serverUrl f))
          :: ((runInner cfg sa iters c fs).clock,
            Ev.sleepReconnect RECONNECT_DELAY)
          :: (runOuter cfg sa rest
            ((runInner cfg sa iters c fs).clock + RECONNECT_DELAY)
            (runInner cfg sa iters c fs).fs).trace, ?_⟩
        simp [runOuter, h, hex, if_neg hf, hb2]

theorem runInner_sample_trace {V : Type} (cfg : LoopCfg) (sa : Option Nat)
    (t : LocalDT) (ep : Int) (readF : Nat → ReadOutcome V)
    (iters : List (IterSpec V)) (c : Nat) (fs : FS V)
    (h : stopSet sa c = false) :
    (runInner cfg sa (IterSpec.sample t ep readF :: iters) c fs).trace
      = (if (appendSample fs (filenameOf t)
            (sampleRow (fmtTimestamp t) ep readF)).2 then
          [(c, Ev.writeHeader (filenameOf t))] else [])
        ++ warnEvents c (readFailures readF)
        ++ ((c, Ev.writeRow (filenameOf t)
              (sampleRow (fmtTimestamp t) ep readF))
          :: (c, Ev.log (LogMsg.dataLogged TAG_NODES.length (filenameOf t)))
          :: (c, Ev.sleepSample cfg.logInterval)
          :: (runInner cfg sa iters (c + cfg.logInterval)
            (appendSample fs (filenameOf t)
              (sampleRow (fmtTimestamp t) ep readF)).1).trace) := by
  simp [runInner, h, List.cons_append, List.append_assoc]

/-- C10: upon a successful connection with the stop flag not yet set, the
first sampling iteration writes its data row before any sleep occurs, at the
very instant the sampling sub-loop is entered (time `c = 0` here, with no
time having passed): the trace contains the fully formed row write before
the first `sleepSample` or `sleepReconnect`, so a data row exists within the
first iteration rather than only after `interval_seconds`. -/
theorem C10_first_sample_immediate {V : Type} (cfg : LoopCfg)
    (sa : Option Nat) (t : LocalDT) (ep : Int) (readF : Nat → ReadOutcome V)
    (iters : List (IterSpec V)) (rest : List (AttemptSpec V))
    (h : stopSet sa 0 = false) :
    rowWriteBeforeFirstSleep (opc_logger_loop cfg sa
        (AttemptSpec.connectOk (IterSpec.sample t ep readF :: iters)
          :: rest)).trace = true
    ∧ (0, Ev.writeRow (filenameOf t) (sampleRow (fmtTimestamp t) ep readF))
        ∈ (opc_logger_loop cfg sa
          (AttemptSpec.connectOk (IterSpec.sample t ep readF :: iters)
            :: rest)).trace := by
  obtain ⟨tail, htr⟩ := runOuter_connectOk_trace cfg sa
    (IterSpec.sample t ep readF :: iters) rest 0 [] h
  have hin := runInner_sample_trace cfg sa t ep readF iters 0 [] h
  have hwrap : (opc_logger_loop cfg sa
      (AttemptSpec.connectOk (IterSpec.sample t ep readF :: iters)
        :: rest)).trace
      = (0, Ev.log LogMsg.threadStarted)
        :: (runOuter cfg sa
          (AttemptSpec.connectOk (IterSpec.sample t ep readF :: iters)
            :: rest) 0 []).trace := rfl
  rw [hwrap, htr, hin]
  have happ : (appendSample ([] : FS V) (filenameOf t)
      (sampleRow (fmtTimestamp t) ep readF)).2 = true := rfl
  rw [happ]
  constructor
  · simp only [if_true, List.cons_append, List.append_assoc,
      List.nil_append, rowWriteBeforeFirstSleep_cons_log,
      rowWriteBeforeFirstSleep_cons_writeHeader,
      rowWriteBeforeFirstSleep_warn, rowWriteBeforeFirstSleep_cons_writeRow]
  · simp [List.mem_cons, List.mem_append]

/-- C4 counterexample: on a stop-initiated run, `stop_logging` calls
`_reset_gui_buttons` directly (line 257) and the worker thread, when its loop
returns after observing the stop, schedules `_reset_gui_buttons` again
(line 249) — the reset callback is invoked twice, not exactly once. -/
theorem C4_counterexample :
    resetInvocations true LoopOutcome.completed = 2
    ∧ resetInvocations true LoopOutcome.completed ≠ 1 := by
  decide

/-- C4 amended: `_reset_gui_buttons` is invoked once by the thread body when
`run_until_complete` returns or raises `asyncio.CancelledError` — but zero
times from the thread when a non-Exception fault propagates, because line 249
sits after the try statement rather than in its `finally` — plus once more,
immediately and unconditionally, by `stop_logging` when the user clicks Stop.
So the count is (stop clicked? 1 : 0) + (fatal? 0 : 1), not always 1. -/
theorem C4_reset_invocations (stopClicked : Bool) (o : LoopOutcome) :
    resetInvocations stopClicked o
      = (if stopClicked then 1 else 0)
        + (if o = LoopOutcome.fatal then 0 else 1) := by
  cases stopClicked <;> cases o <;> rfl

/-- C5 counterexample: `start_logging` with an empty server address and
interval text `10` launches the background thread with no validation error —
the address is never validated, contradicting the claim that an empty
address is rejected synchronously with no background context launched. -/
theorem C5_counterexample :
    (start_logging false "" "10").launched = true
    ∧ (start_logging false "" "10").error = none := by
  decide

/-- C5 amended: `start_logging` validates only the interval text: it is
rejected synchronously (messagebox error, no thread) iff the text does not
parse as an int or parses to a non-positive value; otherwise the thread is
launched — for every address, including the empty one, which is never
checked. -/
theorem C5_interval_validation (priorStopSet : Bool)
    (serverUrl itext : String) :
    ((start_logging priorStopSet serverUrl itext).launched = true
      ↔ ∃ n, pyInt? itext = some n ∧ 0 < n)
    ∧ ((start_logging priorStopSet serverUrl itext).error = none
      ↔ (start_logging priorStopSet serverUrl itext).launched = true) := by
  cases hn : pyInt? itext with
  | none => simp [start_logging, hn]
  | some n =>
    by_cases hle : n ≤ 0
    · constructor
      · simp [start_logging, hn, hle]
      · simp [start_logging, hn, hle]
    · constructor
      · simp [start_logging, hn, hle]
        omega
      · simp [start_logging, hn, hle]

/-- C9: on every `start_logging` call, scanning the observable
actions of the call, the shared stop event is cleared (line 226) strictly before the
worker thread is started (line 233), and whenever the thread is launched the
stop flag ends the call cleared — even when it was still set from a stop
requested during a previous run.  A carried-over stop therefore never
terminates a newly started run. -/
theorem C9_stop_cleared_before_launch (priorStopSet : Bool)
    (serverUrl itext : String) :
    stopClearedBeforeLaunch
        (start_logging priorStopSet serverUrl itext).actions = true
    ∧ ((start_logging priorStopSet serverUrl itext).launched = true →
        (start_logging priorStopSet serverUrl itext).stopEventSet = false
        ∧ GuiAction.clearStopEvent
            ∈ (start_logging priorStopSet serverUrl itext).actions) := by
  cases hn : pyInt? itext with
  | none => simp [start_logging, hn, stopClearedBeforeLaunch]
  | some n =>
    by_cases hle : n ≤ 0 <;>
      simp [start_logging, hn, hle, stopClearedBeforeLaunch]

/-- C9 witness: a call with the stop flag still set from a previous run and
interval text 10 launches the thread with the flag cleared, the clear
preceding the launch. -/
theorem C9_stop_cleared_before_launch_witness :
    stopClearedBeforeLaunch
        (start_logging true "opc.tcp://s" "10").actions = true
    ∧ ((start_logging true "opc.tcp://s" "10").stopEventSet = false
        ∧ GuiAction.clearStopEvent
            ∈ (start_logging true "opc.tcp://s" "10").actions) :=
  ⟨(C9_stop_cleared_before_launch true "opc.tcp://s" "10").1,
   (C9_stop_cleared_before_launch true "opc.tcp://s" "10").2 (by decide)⟩

/-- C3 witness: appending to a fresh filesystem produces a file holding
exactly one header, the header-written flag matches the prior
absence of the file, and two timestamps in the same local hour yield the same file
name. -/
theorem C3_header_dedup_witness :
    headerCount ((fsLookup (appendSample ([] : FS Int)
        "OPC_Log_2025-01-01_12.csv"
        (sampleRow "2025-01-01 12:00:00" 100
          (fun _ => ReadOutcome.ok (1 : Int)))).1
        "OPC_Log_2025-01-01_12.csv").getD []) = 1
    ∧ (appendSample ([] : FS Int) "OPC_Log_2025-01-01_12.csv"
        (sampleRow "2025-01-01 12:00:00" 100
          (fun _ => ReadOutcome.ok (1 : Int)))).2
        = (fsLookup ([] : FS Int) "OPC_Log_2025-01-01_12.csv").isNone
    ∧ filenameOf ⟨2025, 1, 1, 12, 0, 0⟩
        = filenameOf ⟨2025, 1, 1, 12, 30, 45⟩ := by
  have h := C3_header_dedup ([] : FS Int) "OPC_Log_2025-01-01_12.csv"
    "2025-01-01 12:00:00" 100 (fun _ => ReadOutcome.ok (1 : Int))
    (by intro content hc; simp [fsLookup] at hc)
  exact ⟨h.1, h.2.1, h.2.2 ⟨2025, 1, 1, 12, 0, 0⟩ ⟨2025, 1, 1, 12, 30, 45⟩
    rfl rfl rfl rfl⟩

/-- C10 witness: a concrete first connection (one tag read failing) writes
its row at time 0, before any sleep, with the stop flag never set. -/
theorem C10_first_sample_immediate_witness :
    rowWriteBeforeFirstSleep (opc_logger_loop ⟨"opc.tcp://s", 5⟩ none
        [AttemptSpec.connectOk [IterSpec.sample ⟨2025, 2, 3, 9, 5, 6⟩ 42
          (fun i => if i = 1 then ReadOutcome.err "boom"
            else ReadOutcome.ok (7 : Int))]]).trace = true
    ∧ (0, Ev.writeRow (filenameOf ⟨2025, 2, 3, 9, 5, 6⟩)
        (sampleRow (fmtTimestamp ⟨2025, 2, 3, 9, 5, 6⟩) 42
          (fun i => if i = 1 then ReadOutcome.err "boom"
            else ReadOutcome.ok (7 : Int))))
      ∈ (opc_logger_loop ⟨"opc.tcp://s", 5⟩ none
        [AttemptSpec.connectOk [IterSpec.sample ⟨2025, 2, 3, 9, 5, 6⟩ 42
          (fun i => if i = 1 then ReadOutcome.err "boom"
            else ReadOutcome.ok (7 : Int))]]).trace :=
  C10_first_sample_immediate ⟨"opc.tcp://s", 5⟩ none ⟨2025, 2, 3, 9, 5, 6⟩ 42
    (fun i => if i = 1 then ReadOutcome.err "boom"
      else ReadOutcome.ok (7 : Int)) [] [] rfl
